import Mathlib

/-!
Verification of the quantitative analysis engine of the stock-analyzer
repository: a shallow embedding in Lean 4 of the indicator library
(`src/analysis/indicators.py`), the technical analyzer
(`src/analysis/technical.py`), the fundamental analyzer
(`src/analysis/fundamental.py`), the alert engine (`src/monitor/alerts.py`)
and the value screening strategy (`src/screening/screener.py`), together
with theorems settling the specification claims.

Embedding conventions:
* Python/pandas float arithmetic is modelled over `ℚ`.  The float NaN that
  pandas produces for `0/0` is modelled explicitly (`Option ℚ` results or
  if-branches mirroring `fillna`), never silently by the `ℚ` convention
  `x / 0 = 0`.
* Price series are taken in chronological order (the analyzers sort the
  repository rows by trade date before computing; the repository returns
  them ordered).  Trade dates and wall-clock fields (`analysis_date`,
  `triggered_at`) carry no analyzable content and are omitted, as are the
  derived human-readable message strings of alerts.
* Fallible code is embedded with `Option`: a `none` result of an embedded
  operation models the Python call raising.
-/

namespace StockAnalyzer

/-- The last `k` elements of a list (pandas `tail(k)` / a trailing rolling
window evaluated at the final row). -/
def lastN (k : ℕ) (xs : List ℚ) : List ℚ :=
  xs.drop (xs.length - k)

/-- Helper `ewmGo α e₀ xs` unfolds pandas `ewm(span, adjust=False).mean()` after its
first output `e₀`: each output is `α·x + (1-α)·previous`. -/
def ewmGo (a : ℚ) (acc : ℚ) : List ℚ → List ℚ
  | [] => [acc]
  | y :: ys => acc :: ewmGo a (a * y + (1 - a) * acc) ys

/-- pandas `series.ewm(span=span, adjust=False).mean()`: the recursive
exponential moving average with `α = 2 / (span + 1)`, seeded with the first
element. -/
def ewm (span : ℕ) : List ℚ → List ℚ
  | [] => []
  | x :: xs => ewmGo ((2 : ℚ) / ((span : ℚ) + 1)) x xs

/-- MACD indicator result (`MACDResult` of `src/models/schemas.py`, current
revision used by the analyzers and exercised by `tests/test_models.py`:
fields `dif`, `dea`, `macd`). -/
structure MACDResult where
  dif : ℚ
  dea : ℚ
  macd : ℚ
deriving DecidableEq, Repr

/-- Modelled from the spec: the `MACDResult.is_golden_cross` method is in the
current `src/models/schemas.py` revision, which is absent from the source
snapshot (the snapshot carries an older revision of that file without the
method); the spec defines the golden-cross predicate as DIF > DEA and
histogram > 0, which is exactly what `tests/test_models.py`
(`test_macd_golden_cross`) asserts of the method. -/
def MACDResult.is_golden_cross (m : MACDResult) : Bool :=
  decide (m.dea < m.dif) && decide (0 < m.macd)

/-- The pointwise DIF series of `calc_macd`: fast EMA minus slow EMA of the
closes (spans 12 and 26, the defaults used by every caller). -/
def difList (closes : List ℚ) : List ℚ :=
  List.zipWith (fun a b => a - b) (ewm 12 closes) (ewm 26 closes)

/-- Embeds `calc_macd` of `src/analysis/indicators.py` with its default parameters
`fast=12, slow=26, signal=9` (every call site uses the defaults): DIF is the
fast-slow EMA difference, DEA its 9-span EMA, and the histogram
`macd = (dif - dea) * 2`, each taken at the last bar. -/
def calc_macd (closes : List ℚ) : MACDResult :=
  let dif := difList closes
  let dea := ewm 9 dif
  { dif := dif.getLastD 0
    dea := dea.getLastD 0
    macd := (dif.getLastD 0 - dea.getLastD 0) * 2 }

/-- The per-bar gain series of `calc_rsi`: position 0 (pandas `diff` NaN,
zeroed by `where`) is 0, position `i+1` is `max (close[i+1] - close[i]) 0`. -/
def gains (closes : List ℚ) : List ℚ :=
  0 :: List.zipWith (fun p c => if p < c then c - p else 0) closes closes.tail

/-- The per-bar loss series of `calc_rsi` (absolute value of the negative
deltas, zero elsewhere, position 0 zeroed like `gains`). -/
def losses (closes : List ℚ) : List ℚ :=
  0 :: List.zipWith (fun p c => if c < p then p - c else 0) closes closes.tail

/-- Embeds `calc_rsi` of `src/analysis/indicators.py` with its default
`period = 14`: simple rolling means of gains and losses over the trailing 14
positions, `RS = avgGain / avgLoss`, `RSI = 100 - 100 / (1 + RS)` at the last
bar.  Float semantics of the degenerate window are modelled explicitly:
`avgLoss = 0 < avgGain` gives `RS = ∞` and hence exactly 100, while
`avgGain = avgLoss = 0` gives the float NaN, modelled as `none`.  Callers
guard `len ≥ 14`; the rolling `min_periods=14` then makes the last value the
mean over exactly the trailing 14 positions. -/
def calc_rsi (closes : List ℚ) : Option ℚ :=
  let avgGain := (lastN 14 (gains closes)).sum / 14
  let avgLoss := (lastN 14 (losses closes)).sum / 14
  if avgLoss = 0 then
    if avgGain = 0 then none else some 100
  else
    some (100 - 100 / (1 + avgGain / avgLoss))

/-- KDJ indicator result (`KDJResult`, fields `k`, `d`, `j`). -/
structure KDJResult where
  k : ℚ
  d : ℚ
  j : ℚ
deriving DecidableEq, Repr

/-- Minimum of the 9-bar trailing window ending at index `i` (pandas
`rolling(window=9, min_periods=9).min()`); meaningful for `8 ≤ i < length`. -/
def windowMin9 (xs : List ℚ) (i : ℕ) : ℚ :=
  (((xs.drop (i + 1 - 9)).take 9).min?).getD 0

/-- Maximum of the 9-bar trailing window ending at index `i`. -/
def windowMax9 (xs : List ℚ) (i : ℕ) : ℚ :=
  (((xs.drop (i + 1 - 9)).take 9).max?).getD 0

/-- The RSV series of `calc_kdj` (defaults `n=9`): positions with fewer than
9 bars of history are NaN under `min_periods=9` and become 50 through
`fillna(50)`; a zero-range window gives `0/0` NaN (under the price-bar
invariant `low ≤ close ≤ high` the numerator vanishes with the range), also
filled with 50. -/
def rsvList (highs lows closes : List ℚ) : List ℚ :=
  (List.range closes.length).map (fun i =>
    if i < 8 then (50 : ℚ)
    else
      let lmin := windowMin9 lows i
      let hmax := windowMax9 highs i
      if hmax = lmin then 50
      else (closes.getD i 0 - lmin) / (hmax - lmin) * 100)

/-- Embeds `calc_kdj` of `src/analysis/indicators.py` with defaults
`n=9, m1=3, m2=3`: `K = EMA(RSV, 3)`, `D = EMA(K, 3)`, `J = 3K - 2D`, each at
the last bar. -/
def calc_kdj (highs lows closes : List ℚ) : KDJResult :=
  let k := ewm 3 (rsvList highs lows closes)
  let d := ewm 3 k
  { k := k.getLastD 0
    d := d.getLastD 0
    j := 3 * k.getLastD 0 - 2 * d.getLastD 0 }

/-- One entry of `calc_ma`: the arithmetic mean of the last `period` closes,
omitted (`none`) when fewer than `period` bars exist. -/
def calc_ma_one (closes : List ℚ) (period : ℕ) : Option ℚ :=
  if closes.length < period then none
  else some ((lastN period closes).sum / (period : ℚ))

/-- A daily price bar (`DailyQuote`), restricted to the fields the analysis
engine reads: OHLC prices, volume, and the optional day-change percentage
consumed by the volatility alert.  Identification and date fields carry no
analyzable content here. -/
structure Quote where
  open_ : ℚ
  high : ℚ
  low : ℚ
  close : ℚ
  volume : ℤ
  change_pct : Option ℚ
deriving DecidableEq, Repr

/-- Trend classification result (`TrendResult`: `direction` string and the
current price). -/
structure TrendResult where
  direction : String
  current_price : ℚ
deriving DecidableEq, Repr

/-- Technical indicator snapshot (`Indicators`).  The `rsi` field holds
`none` both when the series is shorter than 14 bars and in the NaN case;
executions reaching the NaN case are cut off earlier (see `analyze`). -/
structure Indicators where
  ma5 : Option ℚ
  ma10 : Option ℚ
  ma20 : Option ℚ
  ma60 : Option ℚ
  macd : Option MACDResult
  kdj : Option KDJResult
  rsi : Option ℚ
deriving DecidableEq, Repr

/-- Support/resistance levels (`SupportResistance`): the first levels always
exist (a fallback is fabricated when no candidate is found), the second
levels are optional. -/
structure SupportResistance where
  resistance_1 : ℚ
  resistance_2 : Option ℚ
  support_1 : ℚ
  support_2 : Option ℚ
deriving DecidableEq, Repr

/-- Technical analysis report (`TechnicalReport`), minus the wall-clock
`analysis_date`. -/
structure TechnicalReport where
  symbol : String
  trend : Option TrendResult
  indicators : Option Indicators
  support_resistance : Option SupportResistance
  patterns : List String
  score : ℤ
  summary : Option String
deriving DecidableEq, Repr

/-- Embeds `TechnicalAnalyzer._analyze_trend`: MA5/MA10/MA20 comparisons give the
short and mid trend; the strength is the fraction of positive daily returns
over the trailing 20 bars (`pct_change().tail(20)`, whose leading NaN when
the series has exactly 20 bars counts as non-positive); the direction comes
from the fixed threshold table with strict comparisons. -/
def analyze_trend (closes : List ℚ) : TrendResult :=
  let n := closes.length
  let ma5 := (lastN 5 closes).sum / 5
  let ma10 := (lastN 10 closes).sum / 10
  let ma20 := (lastN 20 closes).sum / 20
  let shortUp := ma10 < ma5
  let midUp := ma20 < ma10
  let m := min n 20
  let positiveDays :=
    ((List.range n).filter (fun i =>
      decide (n - 20 ≤ i) && decide (1 ≤ i) &&
      decide (0 < (closes.getD i 0 - closes.getD (i - 1) 0) / closes.getD (i - 1) 0))).length
  let strength := (positiveDays : ℚ) / (m : ℚ)
  let direction :=
    if 65 / 100 < strength ∧ shortUp ∧ midUp then "强势上涨"
    else if 55 / 100 < strength ∧ shortUp then "震荡偏强"
    else if strength < 35 / 100 ∧ ¬shortUp ∧ ¬midUp then "弱势下跌"
    else if strength < 45 / 100 ∧ ¬shortUp then "震荡偏弱"
    else "横盘整理"
  { direction := direction, current_price := closes.getLastD 0 }

/-- Embeds `TechnicalAnalyzer._calculate_indicators`: MA5/10/20/60 (each omitted
below its minimum length), MACD only with ≥26 bars, KDJ with ≥9, RSI with
≥14. -/
def calc_indicators (highs lows closes : List ℚ) : Indicators :=
  let n := closes.length
  { ma5 := calc_ma_one closes 5
    ma10 := calc_ma_one closes 10
    ma20 := calc_ma_one closes 20
    ma60 := calc_ma_one closes 60
    macd := if 26 ≤ n then some (calc_macd closes) else none
    kdj := if 9 ≤ n then some (calc_kdj highs lows closes) else none
    rsi := if 14 ≤ n then calc_rsi closes else none }

/-- The interior indices `i` of the trailing window scanned by
`TechnicalAnalyzer._find_support_resistance` (`range(2, L - 2)`). -/
def srScanIdxs (L : ℕ) : List ℕ :=
  List.range' 2 (L - 4)

/-- Strict ±2-bar local maximum test of `_find_support_resistance` at index
`i` of the trailing window. -/
def isLocalMaxAt (hs : List ℚ) (i : ℕ) : Bool :=
  decide (hs.getD (i - 1) 0 < hs.getD i 0) && decide (hs.getD (i - 2) 0 < hs.getD i 0) &&
  decide (hs.getD (i + 1) 0 < hs.getD i 0) && decide (hs.getD (i + 2) 0 < hs.getD i 0)

/-- Strict ±2-bar local minimum test of `_find_support_resistance`. -/
def isLocalMinAt (ls : List ℚ) (i : ℕ) : Bool :=
  decide (ls.getD i 0 < ls.getD (i - 1) 0) && decide (ls.getD i 0 < ls.getD (i - 2) 0) &&
  decide (ls.getD i 0 < ls.getD (i + 1) 0) && decide (ls.getD i 0 < ls.getD (i + 2) 0)

/-- Embeds `TechnicalAnalyzer._find_support_resistance`: over the trailing
`min(60, N)` bars, collect strict ±2-bar local maxima of the highs above the
current price (resistances, sorted ascending) and local minima of the lows
below it (supports, sorted descending); the first entries become
`resistance_1`/`support_1`, falling back to current price ×1.05 / ×0.95 when
no candidate exists, and the second entries become the optional
`resistance_2`/`support_2`. -/
def find_support_resistance (highs lows closes : List ℚ) : SupportResistance :=
  let L := min 60 closes.length
  let rh := lastN L highs
  let rl := lastN L lows
  let rc := lastN L closes
  let cp := rc.getLastD 0
  let resistanceLevels :=
    ((srScanIdxs L).filter (fun i =>
      isLocalMaxAt rh i && decide (cp < rh.getD i 0))).map (fun i => rh.getD i 0)
  let supportLevels :=
    ((srScanIdxs L).filter (fun i =>
      isLocalMinAt rl i && decide (rl.getD i 0 < cp))).map (fun i => rl.getD i 0)
  let rs := resistanceLevels.mergeSort (fun a b => decide (a ≤ b))
  let ss := supportLevels.mergeSort (fun a b => decide (b ≤ a))
  { resistance_1 := rs.headD (cp * (105 / 100))
    resistance_2 := rs[1]?
    support_1 := ss.headD (cp * (95 / 100))
    support_2 := ss[1]? }

/-- Candlestick classification of one bar by
`TechnicalAnalyzer._detect_patterns`: body/range ratios and shadow lengths;
a zero-range bar yields nothing; several patterns can fire on one bar, in
the source's append order. -/
def barPatterns (q : Quote) : List String :=
  let body := |q.close - q.open_|
  let rng := q.high - q.low
  let upperShadow := q.high - max q.open_ q.close
  let lowerShadow := min q.open_ q.close - q.low
  if rng = 0 then []
  else
    (if q.open_ < q.close ∧ 7 / 10 < body / rng then ["大阳线"] else []) ++
    (if q.close < q.open_ ∧ 7 / 10 < body / rng then ["大阴线"] else []) ++
    (if body / rng < 1 / 10 ∧ body < upperShadow ∧ body < lowerShadow then ["十字星"] else []) ++
    (if body * 2 < lowerShadow ∧ upperShadow < body * (1 / 2) ∧ q.open_ < q.close then ["锤子线"] else []) ++
    (if body * 2 < upperShadow ∧ lowerShadow < body * (1 / 2) ∧ q.open_ < q.close then ["倒锤线"] else []) ++
    (if body * 2 < upperShadow ∧ lowerShadow < body * (1 / 2) ∧ q.close < q.open_ then ["流星线"] else [])

/-- De-duplication preserving first-seen order
(`list(dict.fromkeys(patterns))`). -/
def dedupFirst : List String → List String
  | [] => []
  | x :: xs => x :: dedupFirst (xs.filter (fun y => decide (y ≠ x)))
termination_by l => l.length
decreasing_by
  simp only [List.length_cons]
  exact Nat.lt_succ_of_le (List.length_filter_le _ _)

/-- Embeds `TechnicalAnalyzer._detect_patterns`: fewer than 3 bars yield nothing;
otherwise the last 3 of the trailing 5 bars are examined newest-first
(`range(len-1, max(len-4, 0), -1)`) and the found pattern names are
de-duplicated keeping first occurrences. -/
def detect_patterns (quotes : List Quote) : List String :=
  if quotes.length < 3 then []
  else
    let recent := quotes.drop (quotes.length - 5)
    let m := recent.length
    let idxs := (List.range m).reverse.filter (fun i => decide (m - 4 < i))
    dedupFirst (idxs.map (fun i => barPatterns (recent.getD i ⟨0, 0, 0, 0, 0, none⟩))).flatten

/-- Embeds `TechnicalAnalyzer._calculate_score`: base 50, trend-direction table,
MACD golden-cross / negative-histogram adjustment, RSI and KDJ
overbought/oversold adjustments, ±5 per bullish/bearish pattern, clamped to
[0, 100].  Python's `if indicators.rsi:` is falsy for a `Decimal` zero, so an
RSI of exactly 0 skips the RSI branch (the NaN case never reaches this code;
see `analyze`). -/
def calc_score (trend : TrendResult) (ind : Indicators) (patterns : List String) : ℤ :=
  let trendScore : ℤ :=
    if trend.direction = "强势上涨" then 20
    else if trend.direction = "震荡偏强" then 10
    else if trend.direction = "横盘整理" then 0
    else if trend.direction = "震荡偏弱" then -10
    else if trend.direction = "弱势下跌" then -20
    else 0
  let macdScore : ℤ :=
    match ind.macd with
    | none => 0
    | some m => if m.is_golden_cross then 10 else if m.macd < 0 then -5 else 0
  let rsiScore : ℤ :=
    match ind.rsi with
    | none => 0
    | some r => if r = 0 then 0 else if r < 30 then 10 else if 70 < r then -10 else 0
  let kdjScore : ℤ :=
    match ind.kdj with
    | none => 0
    | some kd => if kd.j < 20 then 5 else if 80 < kd.j then -5 else 0
  let patScore : ℤ :=
    (patterns.map (fun p =>
      if p = "大阳线" ∨ p = "锤子线" ∨ p = "倒锤线" then (5 : ℤ)
      else if p = "大阴线" ∨ p = "流星线" then -5 else 0)).sum
  max 0 (min 100 (50 + trendScore + macdScore + rsiScore + kdjScore + patScore))

/-- Embeds `TechnicalAnalyzer.analyze` on the chronologically ordered price series:
fewer than 20 bars short-circuit to the insufficient-data report (score 0,
every optional field empty); otherwise trend, indicators, support/resistance
and patterns are combined into a scored report.  When every delta in the
trailing 14-position RSI window vanishes, `calc_rsi` is the float NaN and
`_calculate_score` evaluates `Decimal('nan') < 30`, which raises
`InvalidOperation`; that execution is modelled as `none`. -/
def analyze (symbol : String) (quotes : List Quote) : Option TechnicalReport :=
  if quotes.length < 20 then
    some { symbol := symbol, trend := none, indicators := none,
           support_resistance := none, patterns := [], score := 0,
           summary := some "数据不足，无法进行技术分析" }
  else
    let closes := quotes.map (fun q => q.close)
    let highs := quotes.map (fun q => q.high)
    let lows := quotes.map (fun q => q.low)
    let trend := analyze_trend closes
    let indicators := calc_indicators highs lows closes
    match calc_rsi closes with
    | none => none
    | some _ =>
      let sr := find_support_resistance highs lows closes
      let pats := detect_patterns quotes
      some { symbol := symbol, trend := some trend, indicators := some indicators,
             support_resistance := some sr, patterns := pats,
             score := calc_score trend indicators pats, summary := none }

/-- A periodic financial statement (`Financial`), restricted to the fields
the embedded analyses read; `report_date` is a day number (only date
differences are consumed). -/
structure Financial where
  report_date : ℤ
  revenue : Option ℚ
  net_profit : Option ℚ
  roe : Option ℚ
  pe : Option ℚ
  pb : Option ℚ
  debt_ratio : Option ℚ
  gross_margin : Option ℚ
deriving DecidableEq, Repr

/-- Python truthiness of an optional numeric value: `None` and zero are
falsy (so `if x:` keeps only a present nonzero value). -/
def truthy : Option ℚ → Option ℚ
  | none => none
  | some v => if v = 0 then none else some v

/-- Clamp a score to [0, 100] (`max(0, min(100, score))`). -/
def clampScore (s : ℤ) : ℤ :=
  max 0 (min 100 s)

/-- Profitability analysis result (`ProfitabilityResult`). -/
structure ProfitabilityResult where
  roe_current : Option ℚ
  roe_avg_3y : Option ℚ
  gross_margin : Option ℚ
  roe_trend : String
  score : ℤ
deriving DecidableEq, Repr

/-- The current-ROE bonus table of `_analyze_profitability`. -/
def roeBonus : Option ℚ → ℤ
  | none => 0
  | some v =>
    if 20 < v then 25 else if 15 < v then 15 else if 10 < v then 5
    else if 5 < v then 0 else -10

/-- The ROE-trend bonus of `_analyze_profitability`: rising +10,
falling -10, otherwise 0. -/
def roeTrendBonus (t : String) : ℤ :=
  if t = "上升" then 10 else if t = "下降" then -10 else 0

/-- The gross-margin bonus table of `_analyze_profitability`. -/
def grossMarginBonus : Option ℚ → ℤ
  | none => 0
  | some g => if 40 < g then 10 else if 20 < g then 5 else if g < 10 then -5 else 0

/-- The non-null ROE values among the 12 most recent statements
(`[float(f.roe) for f in financials[:12] if f.roe is not None]`). -/
def roeValues (financials : List Financial) : List ℚ :=
  (financials.take 12).filterMap (fun f => f.roe)

/-- The ROE trend classification of `_analyze_profitability`: with at least
3 non-null ROE values in the 12-statement window, compare the mean of the 3
most recent against the mean of the following 3 (or against itself when
fewer than 6 values exist): more than 10% higher is rising, more than 10%
lower is falling, otherwise stable. -/
def roeTrendOf (financials : List Financial) : String :=
  let vals := roeValues financials
  if 3 ≤ vals.length then
    let recentAvg := (vals.take 3).sum / 3
    let olderAvg := if 6 ≤ vals.length then ((vals.drop 3).take 3).sum / 3 else recentAvg
    if olderAvg * (11 / 10) < recentAvg then "上升"
    else if recentAvg < olderAvg * (9 / 10) then "下降"
    else "稳定"
  else "稳定"

/-- Embeds `FundamentalAnalyzer._analyze_profitability` on the most-recent-first
statement list: current ROE and gross margin from the latest statement, the
3-year average ROE over the 12-statement window, the trend classification,
and the clamped score built from base 50 plus the three bonus tables. -/
def analyze_profitability (financials : List Financial) : ProfitabilityResult :=
  match financials with
  | [] => { roe_current := none, roe_avg_3y := none, gross_margin := none,
            roe_trend := "未知", score := 50 }
  | latest :: _ =>
    let vals := roeValues financials
    let avg3y := if vals = [] then none else some (vals.sum / (vals.length : ℚ))
    let trend := roeTrendOf financials
    { roe_current := latest.roe
      roe_avg_3y := avg3y
      gross_margin := latest.gross_margin
      roe_trend := trend
      score := clampScore (50 + roeBonus latest.roe + roeTrendBonus trend +
        grossMarginBonus latest.gross_margin) }

/-- Growth analysis result (`GrowthResult`). -/
structure GrowthResult where
  revenue_yoy : Option ℚ
  profit_yoy : Option ℚ
  revenue_cagr_3y : Option ℚ
  score : ℤ
deriving DecidableEq, Repr

/-- The year-over-year bonus table of `_analyze_growth`, shared by revenue
and profit growth; an absent YoY contributes nothing. -/
def yoyBonus : Option ℚ → ℤ
  | none => 0
  | some y =>
    if 30 < y then 20 else if 15 < y then 10 else if 5 < y then 5
    else if y < -10 then -15 else if y < 0 then -5 else 0

/-- The CAGR bonus of `_analyze_growth`; an absent CAGR contributes
nothing. -/
def cagrBonus : Option ℚ → ℤ
  | none => 0
  | some c => if 20 < c then 10 else if 10 < c then 5 else 0

/-- The YoY change `(a - b) / b * 100` computed by `_analyze_growth` only
when both values are truthy (present and nonzero; Python:
`if latest.x and previous.x and previous.x != 0`). -/
def yoyOf (latestVal prevVal : Option ℚ) : Option ℚ :=
  match truthy latestVal, truthy prevVal with
  | some a, some b => some ((a - b) / b * 100)
  | _, _ => none

/-- Embeds `FundamentalAnalyzer._analyze_growth` on the most-recent-first statement
list.  `rpow` abstracts Python's float `x ** y`, used only inside the 3-year
CAGR branch (floating-point exponentiation is not otherwise embeddable);
every theorem below holds for an arbitrary `rpow`.  Fewer than 2 statements
give the neutral result (score 50); the YoY changes require truthy current
and previous values; the CAGR needs at least 12 statements, positive oldest
and latest revenue and a positive elapsed-days/365 exponent base. -/
def analyze_growth (rpow : ℚ → ℚ → ℚ) : List Financial → GrowthResult
  | [] => { revenue_yoy := none, profit_yoy := none, revenue_cagr_3y := none, score := 50 }
  | [_] => { revenue_yoy := none, profit_yoy := none, revenue_cagr_3y := none, score := 50 }
  | latest :: previous :: rest =>
    let financials := latest :: previous :: rest
    let revenueYoy := yoyOf latest.revenue previous.revenue
    let profitYoy := yoyOf latest.net_profit previous.net_profit
    let cagr : Option ℚ :=
      if 12 ≤ financials.length then
        match financials.getLast? with
        | none => none
        | some oldest =>
          match oldest.revenue, latest.revenue with
          | some ov, some lv =>
            if 0 < ov ∧ 0 < lv then
              let years : ℚ := ((latest.report_date - oldest.report_date : ℤ) : ℚ) / 365
              if 0 < years then some ((rpow (lv / ov) (1 / years) - 1) * 100) else none
            else none
          | _, _ => none
      else none
    { revenue_yoy := revenueYoy
      profit_yoy := profitYoy
      revenue_cagr_3y := cagr
      score := clampScore (50 + yoyBonus revenueYoy + yoyBonus profitYoy + cagrBonus cagr) }

/-- Alert kinds (`AlertType`). -/
inductive AlertType where
  | price_break
  | abnormal_volatility
  | volume_surge
  | macd_golden_cross
  | macd_death_cross
  | rsi_overbought
  | rsi_oversold
  | custom
deriving DecidableEq, Repr

/-- An alert event (`Alert`), minus the derived message string, the
wall-clock trigger time, and the `is_read` flag, which is always created
`False`. -/
structure Alert where
  symbol : String
  alert_type : AlertType
deriving DecidableEq, Repr

/-- A watch-list entry (`WatchlistItem`), restricted to the fields the alert
engine reads. -/
structure WatchlistItem where
  symbol : String
  alert_price_high : Option ℚ
  alert_price_low : Option ℚ
deriving DecidableEq, Repr

/-- Embeds `AlertEngine._check_price_alerts`: the high and low thresholds are
independently optional and independently checked (close ≥ high fires, and
close ≤ low fires), so both can fire on one scan. -/
def check_price_alerts (symbol : String) (item : WatchlistItem) (latest : Quote) : List Alert :=
  (match item.alert_price_high with
   | some h => if h ≤ latest.close then [⟨symbol, AlertType.price_break⟩] else []
   | none => []) ++
  (match item.alert_price_low with
   | some l => if latest.close ≤ l then [⟨symbol, AlertType.price_break⟩] else []
   | none => [])

/-- Embeds `AlertEngine._check_volatility_alert`: fires when the day-change
percentage is present with absolute value at least 5. -/
def check_volatility_alert (symbol : String) (latest : Quote) : List Alert :=
  match latest.change_pct with
  | none => []
  | some c => if 5 ≤ |c| then [⟨symbol, AlertType.abnormal_volatility⟩] else []

/-- Embeds `AlertEngine._check_macd_golden_cross`: skipped below 26 bars; the
golden-cross predicate is evaluated on the full series and, only when the
series minus its last bar still has at least 26 bars, on that shortened
series; it fires exactly when golden now and not golden previously.  A
26-bar series therefore never fires. -/
def check_macd_golden_cross (symbol : String) (closes : List ℚ) : List Alert :=
  if closes.length < 26 then []
  else
    let current := calc_macd closes
    let prev := closes.dropLast
    if 26 ≤ prev.length then
      if current.is_golden_cross ∧ ¬(calc_macd prev).is_golden_cross then
        [⟨symbol, AlertType.macd_golden_cross⟩]
      else []
    else []

/-- Embeds `AlertEngine._check_rsi_alerts`: skipped below 14 bars; overbought above
80, else oversold below 20.  The NaN RSI of an all-flat window is converted
with `float()` (no exception) and fails both comparisons. -/
def check_rsi_alerts (symbol : String) (closes : List ℚ) : List Alert :=
  if closes.length < 14 then []
  else
    match calc_rsi closes with
    | none => []
    | some r =>
      if 80 < r then [⟨symbol, AlertType.rsi_overbought⟩]
      else if r < 20 then [⟨symbol, AlertType.rsi_oversold⟩]
      else []

/-- Embeds `AlertEngine._check_item`: a single scan of one watch-list entry against
its chronologically ordered price history; fewer than 2 bars yield nothing,
otherwise the price, volatility, MACD golden-cross and RSI checks run in
order and their alerts are concatenated. -/
def check_item (item : WatchlistItem) (quotes : List Quote) : List Alert :=
  if quotes.length < 2 then []
  else
    let closes := quotes.map (fun q => q.close)
    let latest := quotes.getLastD ⟨0, 0, 0, 0, 0, none⟩
    check_price_alerts item.symbol item latest ++
    check_volatility_alert item.symbol latest ++
    check_macd_golden_cross item.symbol closes ++
    check_rsi_alerts item.symbol closes

/-- Stock identity (`StockInfo`), restricted to the fields the value
screening strategy reads (the market filter is applied while building the
pool, before the strategy runs). -/
structure StockInfo where
  symbol : String
  name : String
deriving DecidableEq, Repr

/-- A screening hit (`ScreenResult`); `pe`/`pb` are the `match_details`
recorded for the candidate. -/
structure ScreenResult where
  symbol : String
  name : String
  score : ℚ
  pe : ℚ
  pb : ℚ
deriving DecidableEq, Repr

/-- Embeds `StockScreener._calculate_value_score`:
`(1 - PE/maxPE)·50 + (1 - PB/maxPB)·50`, clamped to [0, 100]. -/
def calc_value_score (pe pb mpe mpb : ℚ) : ℚ :=
  min 100 (max 0 ((1 - pe / mpe) * 50 + (1 - pb / mpb) * 50))

/-- The per-candidate body of `StockScreener._screen_value_strategy`:
`getFin` stands for `repo.get_financials(symbol, years=1)` (a
most-recent-first list); the code reads `financials[-1]`, i.e. the OLDEST
statement of that list (despite calling the variable `latest`).  Truthy PE
and PB within the `max_pe`/`max_pb` bounds are kept and scored; a zero
`max_pe` or `max_pb` makes `_calculate_value_score` raise
`ZeroDivisionError`, which the per-stock `except` swallows, excluding the
candidate (`none`). -/
def screen_value_item (getFin : String → List Financial) (mpe mpb : ℚ)
    (stock : StockInfo) : Option ScreenResult :=
  match (getFin stock.symbol).getLast? with
  | none => none
  | some latest =>
    match truthy latest.pe, truthy latest.pb with
    | some pe, some pb =>
      if pe ≤ mpe ∧ pb ≤ mpb then
        if mpe = 0 ∨ mpb = 0 then none
        else some ⟨stock.symbol, stock.name, calc_value_score pe pb mpe mpb, pe, pb⟩
      else none
    | _, _ => none

/-- Embeds `StockScreener._screen_value_strategy`: filter and score each candidate,
then sort by score descending (Python's stable `sorted(..., reverse=True)`,
embedded as a stable merge sort with the ≥-on-score order). -/
def screen_value_strategy (stocks : List StockInfo) (getFin : String → List Financial)
    (mpe mpb : ℚ) : List ScreenResult :=
  (stocks.filterMap (screen_value_item getFin mpe mpb)).mergeSort
    (fun a b => decide (b.score ≤ a.score))

/-! Concrete inputs used by counterexamples and witnesses. -/

/-- A 26-bar close series (20 bars falling by 3, then rising by 1) whose
MACD golden-cross predicate holds on the full series but fails with the
last bar dropped: the cross happens exactly at bar 26. -/
def c3cexCloses : List ℚ :=
  [100, 97, 94, 91, 88, 85, 82, 79, 76, 73, 70, 67, 64, 61, 58, 55, 52, 49,
   46, 43, 44, 45, 46, 47, 48, 49]

/-- A 28-bar close series (22 bars falling by 5, then rising by 1) whose
MACD golden cross happens exactly at the last bar. -/
def c3witCloses : List ℚ :=
  [150, 145, 140, 135, 130, 125, 120, 115, 110, 105, 100, 95, 90, 85, 80,
   75, 70, 65, 60, 55, 50, 45, 46, 47, 48, 49, 50, 51]

/-- A 27-bar price history (21 bars falling by 4, then rising by 1, the last
bar carrying a -6% day change): the MACD golden cross is new at the last bar
and the RSI is below 20. -/
def c4quotes : List Quote :=
  ([200, 196, 192, 188, 184, 180, 176, 172, 168, 164, 160, 156, 152, 148,
    144, 140, 136, 132, 128, 124, 120, 121, 122, 123, 124, 125,
    126] : List ℚ).map (fun c => ⟨c, c, c, c, 0, some (-6)⟩)

/-! Claim theorems. -/

/-- Claim C1: for every input price series with fewer than 20 bars, the
technical analyzer returns the short-circuit insufficient-data report —
score 0 with trend, indicators, support/resistance and patterns all absent —
and does not raise. -/
theorem claim_C1 (symbol : String) (quotes : List Quote) (h : quotes.length < 20) :
    ∃ r, analyze symbol quotes = some r ∧ r.score = 0 ∧ r.trend = none ∧
      r.indicators = none ∧ r.support_resistance = none ∧ r.patterns = [] := by
  refine ⟨⟨symbol, none, none, none, [], 0, some "数据不足，无法进行技术分析"⟩,
    ?_, rfl, rfl, rfl, rfl, rfl⟩
  unfold analyze
  rw [if_pos h]

/-- Witness for C1 at the empty series. -/
theorem claim_C1_witness :
    ∃ r, analyze "000001.SZ" [] = some r ∧ r.score = 0 ∧ r.trend = none ∧
      r.indicators = none ∧ r.support_resistance = none ∧ r.patterns = [] :=
  claim_C1 "000001.SZ" [] (by decide)

/-- Claim C2: the MACD golden-cross predicate returns true iff DIF > DEA and
the histogram is positive; in particular DIF > DEA with a non-positive
histogram yields false. -/
theorem claim_C2 :
    (∀ m : MACDResult, m.is_golden_cross = true ↔ (m.dea < m.dif ∧ 0 < m.macd)) ∧
    (∀ m : MACDResult, m.dea < m.dif → m.macd ≤ 0 → m.is_golden_cross = false) := by
  constructor
  · intro m
    simp [MACDResult.is_golden_cross]
  · intro m h1 h2
    simp [MACDResult.is_golden_cross, h1]
    exact h2

/-- Witness for C2 at the test's own input (DIF 0.5 > DEA 0.3, histogram
-0.1 ≤ 0). -/
theorem claim_C2_witness :
    MACDResult.is_golden_cross ⟨1 / 2, 3 / 10, -1 / 10⟩ = false ∧
      ((3 : ℚ) / 10 < 1 / 2 ∧ (-1 : ℚ) / 10 ≤ 0) :=
  ⟨claim_C2.2 ⟨1 / 2, 3 / 10, -1 / 10⟩ (by decide!) (by decide!), by decide!, by decide!⟩

/-- Claim C3 counterexample: on the 26-bar series `c3cexCloses` the
golden-cross predicate holds on the full series and fails with the last bar
dropped, yet the alert engine emits nothing, because the dropped series has
only 25 bars and the code demands 26 for BOTH evaluations. -/
theorem claim_C3_counterexample :
    c3cexCloses.length = 26 ∧
    (calc_macd c3cexCloses).is_golden_cross = true ∧
    (calc_macd c3cexCloses.dropLast).is_golden_cross = false ∧
    check_macd_golden_cross "000001.SZ" c3cexCloses = [] :=
  ⟨by decide, by decide!, by decide!, by decide!⟩

/-- Claim C3 (amended): the MACD golden-cross check emits nothing for series
of at most 26 bars (not 25) and never raises; for series of at least 27 bars
it is edge-triggered: exactly one event iff the predicate holds now and
failed with the last bar dropped, and no event otherwise (in particular when
the predicate holds on both evaluations or fails now). -/
theorem claim_C3 (symbol : String) (closes : List ℚ) :
    (closes.length ≤ 26 → check_macd_golden_cross symbol closes = []) ∧
    (27 ≤ closes.length →
      ((check_macd_golden_cross symbol closes = [⟨symbol, AlertType.macd_golden_cross⟩]) ↔
        ((calc_macd closes).is_golden_cross = true ∧
          (calc_macd closes.dropLast).is_golden_cross = false)) ∧
      ((check_macd_golden_cross symbol closes = []) ↔
        ¬((calc_macd closes).is_golden_cross = true ∧
          (calc_macd closes.dropLast).is_golden_cross = false))) := by
  constructor
  · intro h
    unfold check_macd_golden_cross
    rcases lt_or_ge closes.length 26 with h26 | h26
    · rw [if_pos h26]
    · rw [if_neg (not_lt.mpr h26)]
      have hd : closes.dropLast.length < 26 := by
        rw [List.length_dropLast]; omega
      rw [if_neg (not_le.mpr hd)]
  · intro h
    have h26 : ¬closes.length < 26 := by omega
    have hdl : 26 ≤ closes.dropLast.length := by
      rw [List.length_dropLast]; omega
    unfold check_macd_golden_cross
    rw [if_neg h26, if_pos hdl]
    by_cases hc : ((calc_macd closes).is_golden_cross = true ∧
        (calc_macd closes.dropLast).is_golden_cross = false)
    · rw [if_pos (by simpa [Bool.not_eq_true] using hc)]
      simp [hc]
    · rw [if_neg (by simpa [Bool.not_eq_true] using hc)]
      simp [hc]

/-- Witness for C3 at the 28-bar series `c3witCloses`, whose golden cross is
new at the last bar: exactly one MACD golden-cross event. -/
theorem claim_C3_witness :
    check_macd_golden_cross "000001.SZ" c3witCloses =
      [⟨"000001.SZ", AlertType.macd_golden_cross⟩] :=
  (((claim_C3 "000001.SZ" c3witCloses).2 (by decide)).1).mpr ⟨by decide!, by decide!⟩

/-- The price check emits at most 2 alerts (one per optional threshold). -/
theorem check_price_alerts_length_le (s : String) (item : WatchlistItem) (q : Quote) :
    (check_price_alerts s item q).length ≤ 2 := by
  unfold check_price_alerts
  cases item.alert_price_high <;> cases item.alert_price_low <;>
      simp only [List.length_append] <;> (try split_ifs) <;> simp

/-- The volatility check emits at most 1 alert. -/
theorem check_volatility_alert_length_le (s : String) (q : Quote) :
    (check_volatility_alert s q).length ≤ 1 := by
  unfold check_volatility_alert
  split
  · simp
  · split <;> simp

/-- The MACD golden-cross check emits at most 1 alert. -/
theorem check_macd_golden_cross_length_le (s : String) (closes : List ℚ) :
    (check_macd_golden_cross s closes).length ≤ 1 := by
  unfold check_macd_golden_cross
  split
  · simp
  · dsimp only
    split
    · split <;> simp
    · simp

/-- The RSI check emits at most 1 alert. -/
theorem check_rsi_alerts_length_le (s : String) (closes : List ℚ) :
    (check_rsi_alerts s closes).length ≤ 1 := by
  unfold check_rsi_alerts
  split
  · simp
  · split
    · simp
    · split <;> [simp; skip]
      split <;> simp

/-- Claim C4 counterexample: a single scan of one watch-list entry can emit
5 alert events (high and low price thresholds both breached because the low
threshold exceeds the high one, abnormal volatility, a fresh MACD golden
cross, and RSI oversold). -/
theorem claim_C4_counterexample :
    (check_item ⟨"000001.SZ", some 1, some 1000⟩ c4quotes).length = 5 := by
  decide!

/-- The gain series has the length of the close series (for a nonempty
series). -/
theorem length_gains (closes : List ℚ) (h : 1 ≤ closes.length) :
    (gains closes).length = closes.length := by
  unfold gains
  simp only [List.length_cons, List.length_zipWith, List.length_tail]
  omega

/-- The loss series has the length of the close series (for a nonempty
series). -/
theorem length_losses (closes : List ℚ) (h : 1 ≤ closes.length) :
    (losses closes).length = closes.length := by
  unfold losses
  simp only [List.length_cons, List.length_zipWith, List.length_tail]
  omega

/-- Every per-bar gain is non-negative. -/
theorem gains_nonneg (closes : List ℚ) : ∀ x ∈ gains closes, 0 ≤ x := by
  intro x hx
  unfold gains at hx
  rcases List.mem_cons.mp hx with h | h
  · simp [h]
  · obtain ⟨n, hn, hx2⟩ := List.mem_iff_getElem.mp h
    rw [List.getElem_zipWith] at hx2
    subst hx2
    split_ifs with hlt
    · linarith
    · exact le_refl 0

/-- Every per-bar loss is non-negative. -/
theorem losses_nonneg (closes : List ℚ) : ∀ x ∈ losses closes, 0 ≤ x := by
  intro x hx
  unfold losses at hx
  rcases List.mem_cons.mp hx with h | h
  · simp [h]
  · obtain ⟨n, hn, hx2⟩ := List.mem_iff_getElem.mp h
    rw [List.getElem_zipWith] at hx2
    subst hx2
    split_ifs with hlt
    · linarith
    · exact le_refl 0

/-- The gain at position `1 ≤ i < length` is the positive part of the close
delta. -/
theorem getD_gains (closes : List ℚ) (i : ℕ) (h1 : 1 ≤ i) (h2 : i < closes.length) :
    (gains closes).getD i 0 =
      if closes.getD (i - 1) 0 < closes.getD i 0
      then closes.getD i 0 - closes.getD (i - 1) 0 else 0 := by
  obtain ⟨j, rfl⟩ : ∃ j, i = j + 1 := ⟨i - 1, by omega⟩
  have hj : j < closes.length := by omega
  unfold gains
  rw [List.getD_cons_succ, List.getD_eq_getElem?_getD, List.getElem?_zipWith,
    List.getElem?_tail, List.getElem?_eq_getElem hj, List.getElem?_eq_getElem h2]
  simp only [Nat.add_sub_cancel, List.getD_eq_getElem _ _ hj, List.getD_eq_getElem _ _ h2,
    Option.getD_some]

/-- The loss at position `1 ≤ i < length` is the negative part of the close
delta. -/
theorem getD_losses (closes : List ℚ) (i : ℕ) (h1 : 1 ≤ i) (h2 : i < closes.length) :
    (losses closes).getD i 0 =
      if closes.getD i 0 < closes.getD (i - 1) 0
      then closes.getD (i - 1) 0 - closes.getD i 0 else 0 := by
  obtain ⟨j, rfl⟩ : ∃ j, i = j + 1 := ⟨i - 1, by omega⟩
  have hj : j < closes.length := by omega
  unfold losses
  rw [List.getD_cons_succ, List.getD_eq_getElem?_getD, List.getElem?_zipWith,
    List.getElem?_tail, List.getElem?_eq_getElem hj, List.getElem?_eq_getElem h2]
  simp only [Nat.add_sub_cancel, List.getD_eq_getElem _ _ hj, List.getD_eq_getElem _ _ h2,
    Option.getD_some]

/-- Reading the trailing window at a transferred index gives the original
element. -/
theorem lastN_getD (xs : List ℚ) (k i : ℕ) (hk : xs.length - k ≤ i) (_hi : i < xs.length) :
    (lastN k xs).getD (i - (xs.length - k)) 0 = xs.getD i 0 := by
  unfold lastN
  rw [List.getD_eq_getElem?_getD, List.getElem?_drop, List.getD_eq_getElem?_getD]
  congr 2
  omega

/-- The trailing window of `k ≤ length` elements has length `k`. -/
theorem lastN_length (xs : List ℚ) (k : ℕ) (h : k ≤ xs.length) :
    (lastN k xs).length = k := by
  unfold lastN
  rw [List.length_drop]
  omega

/-- A list element read with a in-bounds `getD` is a member. -/
theorem getD_mem (l : List ℚ) (j : ℕ) (h : j < l.length) : l.getD j 0 ∈ l := by
  rw [List.getD_eq_getElem _ _ h]
  exact List.getElem_mem h

/-- With non-negative entries, any element of the trailing 14-window bounds
the window sum from below. -/
theorem single_le_sum_lastN (xs : List ℚ) (hnn : ∀ x ∈ xs, 0 ≤ x) (h14 : 14 ≤ xs.length)
    (i : ℕ) (hwin : xs.length - 14 ≤ i) (hi : i < xs.length) :
    xs.getD i 0 ≤ (lastN 14 xs).sum := by
  have hgd := lastN_getD xs 14 i hwin hi
  have hmem : xs.getD i 0 ∈ lastN 14 xs := by
    rw [← hgd]
    apply getD_mem
    rw [lastN_length _ _ h14]
    omega
  exact List.single_le_sum (fun x hx => hnn x (List.drop_subset _ _ hx)) _ hmem

/-- The trailing-window sum of an everywhere-zero list vanishes. -/
theorem sum_lastN_eq_zero (xs : List ℚ) (h : ∀ x ∈ xs, x = 0) : (lastN 14 xs).sum = 0 :=
  List.sum_eq_zero (fun x hx => h x (List.drop_subset _ _ hx))

/-- The trailing-window sum of a non-negative list is non-negative. -/
theorem sum_lastN_nonneg (xs : List ℚ) (h : ∀ x ∈ xs, 0 ≤ x) : 0 ≤ (lastN 14 xs).sum :=
  List.sum_nonneg (fun x hx => h x (List.drop_subset _ _ hx))

/-- Shared RSI well-definedness and range lemma: a series of at least 14
bars with some nonzero close delta inside the trailing 14-position window
has an RSI, and it lies in [0, 100]. -/
theorem calc_rsi_bounds (closes : List ℚ) (h14 : 14 ≤ closes.length)
    (hw : ∃ i < closes.length, closes.length - 14 ≤ i ∧ 1 ≤ i ∧
      closes.getD i 0 ≠ closes.getD (i - 1) 0) :
    ∃ r, calc_rsi closes = some r ∧ 0 ≤ r ∧ r ≤ 100 := by
  obtain ⟨i, hi, hwin, h1, hne⟩ := hw
  have hlg : (gains closes).length = closes.length := length_gains _ (by omega)
  have hll : (losses closes).length = closes.length := length_losses _ (by omega)
  have hGnn : 0 ≤ (lastN 14 (gains closes)).sum := sum_lastN_nonneg _ (gains_nonneg closes)
  have hLnn : 0 ≤ (lastN 14 (losses closes)).sum := sum_lastN_nonneg _ (losses_nonneg closes)
  have hpos : 0 < (gains closes).getD i 0 + (losses closes).getD i 0 := by
    rw [getD_gains closes i h1 hi, getD_losses closes i h1 hi]
    rcases lt_trichotomy (closes.getD (i - 1) 0) (closes.getD i 0) with h | h | h
    · rw [if_pos h, if_neg (by linarith)]
      linarith
    · exact absurd h.symm hne
    · rw [if_neg (by linarith), if_pos h]
      linarith
  have hGel : (gains closes).getD i 0 ≤ (lastN 14 (gains closes)).sum :=
    single_le_sum_lastN _ (gains_nonneg closes) (by omega) i (by omega) (by omega)
  have hLel : (losses closes).getD i 0 ≤ (lastN 14 (losses closes)).sum :=
    single_le_sum_lastN _ (losses_nonneg closes) (by omega) i (by omega) (by omega)
  have hsum : 0 < (lastN 14 (gains closes)).sum + (lastN 14 (losses closes)).sum := by
    linarith
  unfold calc_rsi
  by_cases hz : (lastN 14 (losses closes)).sum / 14 = 0
  · have hLz : (lastN 14 (losses closes)).sum = 0 := by
      rcases div_eq_zero_iff.mp hz with h | h
      · exact h
      · norm_num at h
    have hGpos : 0 < (lastN 14 (gains closes)).sum := by linarith
    rw [if_pos hz, if_neg (by positivity)]
    exact ⟨100, rfl, by norm_num, le_refl _⟩
  · rw [if_neg hz]
    have hLpos : 0 < (lastN 14 (losses closes)).sum / 14 :=
      lt_of_le_of_ne (by positivity) (Ne.symm hz)
    have hrs : 0 ≤ (lastN 14 (gains closes)).sum / 14 / ((lastN 14 (losses closes)).sum / 14) :=
      div_nonneg (by positivity) (le_of_lt hLpos)
    have hq1 : 0 < 100 / (1 + (lastN 14 (gains closes)).sum / 14 /
        ((lastN 14 (losses closes)).sum / 14)) := by positivity
    have hq2 : 100 / (1 + (lastN 14 (gains closes)).sum / 14 /
        ((lastN 14 (losses closes)).sum / 14)) ≤ 100 :=
      div_le_self (by norm_num) (by linarith)
    exact ⟨_, rfl, by linarith, by linarith⟩

/-- The trailing `min(60, N)`-bar window of highs scanned by
`_find_support_resistance`. -/
def srWindowHighs (quotes : List Quote) : List ℚ :=
  lastN (min 60 quotes.length) (quotes.map (fun q => q.high))

/-- The trailing `min(60, N)`-bar window of lows scanned by
`_find_support_resistance`. -/
def srWindowLows (quotes : List Quote) : List ℚ :=
  lastN (min 60 quotes.length) (quotes.map (fun q => q.low))

/-- The current price used by `_find_support_resistance`: the last close of
the trailing window (equal to the last close of the whole series). -/
def srCurrentPrice (quotes : List Quote) : ℚ :=
  (lastN (min 60 quotes.length) (quotes.map (fun q => q.close))).getLastD 0

/-- Dropping strictly fewer elements than the length keeps the last
element. -/
theorem getLastD_drop (l : List ℚ) (n : ℕ) (h : n < l.length) :
    (l.drop n).getLastD 0 = l.getLastD 0 := by
  rw [List.getLastD_eq_getLast?, List.getLastD_eq_getLast?, List.getLast?_drop,
    if_neg (by omega)]

/-- The window current price is the last close of the full series. -/
theorem srCurrentPrice_eq (quotes : List Quote) (h : 1 ≤ quotes.length) :
    srCurrentPrice quotes = (quotes.map (fun q => q.close)).getLastD 0 := by
  unfold srCurrentPrice lastN
  rw [getLastD_drop]
  rw [List.length_map]
  omega

/-- With no strict local maximum of the highs above the current price in the
scanned window, `_find_support_resistance` falls back to
`resistance_1 = current price × 1.05`. -/
theorem find_support_resistance_no_res (quotes : List Quote)
    (hres : ∀ i < min 60 quotes.length, 2 ≤ i → i + 2 < min 60 quotes.length →
      ¬(isLocalMaxAt (srWindowHighs quotes) i = true ∧
        srCurrentPrice quotes < (srWindowHighs quotes).getD i 0)) :
    (find_support_resistance (quotes.map (fun q => q.high)) (quotes.map (fun q => q.low))
        (quotes.map (fun q => q.close))).resistance_1 =
      srCurrentPrice quotes * (105 / 100) := by
  unfold find_support_resistance
  unfold srWindowHighs srCurrentPrice at *
  simp only [List.length_map]
  have hfilter : ((srScanIdxs (min 60 quotes.length)).filter (fun i =>
      isLocalMaxAt (lastN (min 60 quotes.length) (quotes.map (fun q => q.high))) i &&
      decide ((lastN (min 60 quotes.length) (quotes.map (fun q => q.close))).getLastD 0 <
        (lastN (min 60 quotes.length) (quotes.map (fun q => q.high))).getD i 0))) = [] := by
    rw [List.filter_eq_nil_iff]
    intro i hi
    rw [srScanIdxs, List.mem_range'] at hi
    obtain ⟨j, hj, rfl⟩ := hi
    simp only [Bool.and_eq_true, decide_eq_true_eq, not_and]
    intro hmax hcp
    exact hres (2 + 1 * j) (by omega) (by omega) (by omega) ⟨hmax, hcp⟩
  rw [hfilter, List.map_nil, List.mergeSort_nil, List.headD_nil]

/-- With no strict local minimum of the lows below the current price in the
scanned window, `_find_support_resistance` falls back to
`support_1 = current price × 0.95`. -/
theorem find_support_resistance_no_sup (quotes : List Quote)
    (hsup : ∀ i < min 60 quotes.length, 2 ≤ i → i + 2 < min 60 quotes.length →
      ¬(isLocalMinAt (srWindowLows quotes) i = true ∧
        (srWindowLows quotes).getD i 0 < srCurrentPrice quotes)) :
    (find_support_resistance (quotes.map (fun q => q.high)) (quotes.map (fun q => q.low))
        (quotes.map (fun q => q.close))).support_1 =
      srCurrentPrice quotes * (95 / 100) := by
  unfold find_support_resistance
  unfold srWindowLows srCurrentPrice at *
  simp only [List.length_map]
  have hfilter : ((srScanIdxs (min 60 quotes.length)).filter (fun i =>
      isLocalMinAt (lastN (min 60 quotes.length) (quotes.map (fun q => q.low))) i &&
      decide ((lastN (min 60 quotes.length) (quotes.map (fun q => q.low))).getD i 0 <
        (lastN (min 60 quotes.length) (quotes.map (fun q => q.close))).getLastD 0))) = [] := by
    rw [List.filter_eq_nil_iff]
    intro i hi
    rw [srScanIdxs, List.mem_range'] at hi
    obtain ⟨j, hj, rfl⟩ := hi
    simp only [Bool.and_eq_true, decide_eq_true_eq, not_and]
    intro hmin hcp
    exact hsup (2 + 1 * j) (by omega) (by omega) (by omega) ⟨hmin, hcp⟩
  rw [hfilter, List.map_nil, List.mergeSort_nil, List.headD_nil]

/-- A 14-bar close series, flat except for a final up-tick: a non-degenerate
RSI window. -/
def rsiFlat14 : List ℚ :=
  [50, 50, 50, 50, 50, 50, 50, 50, 50, 50, 50, 50, 50, 51]

/-- A strictly increasing 30-bar close series. -/
def rsiInc30 : List ℚ :=
  (List.range 30).map (fun i => (i : ℚ) + 1)

/-- A strictly decreasing 30-bar close series. -/
def rsiDec30 : List ℚ :=
  (List.range 30).map (fun i => (30 : ℚ) - i)

/-- Claim C5: for every close series of at least 14 bars with a nonzero
close delta inside the trailing 14-position window, the RSI exists and lies
in [0, 100]; a strictly increasing 30-bar series gives RSI above 70 (exactly
100, the zero-average-loss value); a strictly decreasing one gives RSI below
30 (exactly 0). -/
theorem claim_C5 :
    (∀ closes : List ℚ, 14 ≤ closes.length →
      (∃ i < closes.length, closes.length - 14 ≤ i ∧ 1 ≤ i ∧
        closes.getD i 0 ≠ closes.getD (i - 1) 0) →
      ∃ r, calc_rsi closes = some r ∧ 0 ≤ r ∧ r ≤ 100) ∧
    (∀ closes : List ℚ, closes.length = 30 →
      (∀ i < closes.length - 1, closes.getD i 0 < closes.getD (i + 1) 0) →
      ∃ r, calc_rsi closes = some r ∧ 70 < r ∧ r = 100) ∧
    (∀ closes : List ℚ, closes.length = 30 →
      (∀ i < closes.length - 1, closes.getD (i + 1) 0 < closes.getD i 0) →
      ∃ r, calc_rsi closes = some r ∧ r < 30 ∧ r = 0) := by
  refine ⟨fun closes h14 hw => calc_rsi_bounds closes h14 hw, ?_, ?_⟩
  · intro closes hlen hinc
    have hzero : ∀ x ∈ losses closes, x = 0 := by
      intro x hx
      unfold losses at hx
      rcases List.mem_cons.mp hx with h | h
      · exact h
      · obtain ⟨n, hn, hx2⟩ := List.mem_iff_getElem.mp h
        rw [List.getElem_zipWith] at hx2
        subst hx2
        have hn2 : n < closes.length - 1 := by
          simpa [List.length_zipWith, List.length_tail] using hn
        have hmono := hinc n hn2
        have hnt : n < closes.tail.length := by
          rw [List.length_tail]; omega
        have hn3 : n < closes.length := by omega
        have hn4 : n + 1 < closes.length := by omega
        rw [List.getD_eq_getElem _ _ hn3, List.getD_eq_getElem _ _ hn4] at hmono
        rw [if_neg]
        rw [List.getElem_tail]
        exact not_lt.mpr (le_of_lt hmono)
    have hLz : (lastN 14 (losses closes)).sum = 0 := sum_lastN_eq_zero _ hzero
    have hlast : 0 < (gains closes).getD (closes.length - 1) 0 := by
      rw [getD_gains closes (closes.length - 1) (by omega) (by omega)]
      have hmono := hinc (closes.length - 2) (by omega)
      have e1 : closes.length - 1 - 1 = closes.length - 2 := by omega
      have e2 : closes.length - 2 + 1 = closes.length - 1 := by omega
      rw [e2] at hmono
      rw [e1, if_pos hmono]
      linarith
    have hGpos : 0 < (lastN 14 (gains closes)).sum :=
      lt_of_lt_of_le hlast (single_le_sum_lastN _ (gains_nonneg _)
        (by rw [length_gains _ (by omega)]; omega) _
        (by rw [length_gains _ (by omega)]; omega)
        (by rw [length_gains _ (by omega)]; omega))
    refine ⟨100, ?_, by norm_num, rfl⟩
    unfold calc_rsi
    rw [if_pos (by rw [hLz]; norm_num), if_neg (by positivity)]
  · intro closes hlen hdec
    have hzero : ∀ x ∈ gains closes, x = 0 := by
      intro x hx
      unfold gains at hx
      rcases List.mem_cons.mp hx with h | h
      · exact h
      · obtain ⟨n, hn, hx2⟩ := List.mem_iff_getElem.mp h
        rw [List.getElem_zipWith] at hx2
        subst hx2
        have hn2 : n < closes.length - 1 := by
          simpa [List.length_zipWith, List.length_tail] using hn
        have hmono := hdec n hn2
        have hn3 : n < closes.length := by omega
        have hn4 : n + 1 < closes.length := by omega
        rw [List.getD_eq_getElem _ _ hn3, List.getD_eq_getElem _ _ hn4] at hmono
        rw [if_neg]
        rw [List.getElem_tail]
        exact not_lt.mpr (le_of_lt hmono)
    have hGz : (lastN 14 (gains closes)).sum = 0 := sum_lastN_eq_zero _ hzero
    have hlast : 0 < (losses closes).getD (closes.length - 1) 0 := by
      rw [getD_losses closes (closes.length - 1) (by omega) (by omega)]
      have hmono := hdec (closes.length - 2) (by omega)
      have e1 : closes.length - 1 - 1 = closes.length - 2 := by omega
      have e2 : closes.length - 2 + 1 = closes.length - 1 := by omega
      rw [e2] at hmono
      rw [e1, if_pos hmono]
      linarith
    have hLpos : 0 < (lastN 14 (losses closes)).sum :=
      lt_of_lt_of_le hlast (single_le_sum_lastN _ (losses_nonneg _)
        (by rw [length_losses _ (by omega)]; omega) _
        (by rw [length_losses _ (by omega)]; omega)
        (by rw [length_losses _ (by omega)]; omega))
    refine ⟨0, ?_, by norm_num, rfl⟩
    unfold calc_rsi
    rw [if_neg (ne_of_gt (by positivity))]
    rw [hGz]
    norm_num

/-- Witness for C5: its three parts applied at a 14-bar series with one
up-tick, the strictly increasing 30-bar series and the strictly decreasing
one. -/
theorem claim_C5_witness :
    (∃ r, calc_rsi rsiFlat14 = some r ∧ 0 ≤ r ∧ r ≤ 100) ∧
    (∃ r, calc_rsi rsiInc30 = some r ∧ 70 < r ∧ r = 100) ∧
    (∃ r, calc_rsi rsiDec30 = some r ∧ r < 30 ∧ r = 0) :=
  ⟨claim_C5.1 rsiFlat14 (by decide) (by decide!),
   claim_C5.2.1 rsiInc30 (by decide) (by decide!),
   claim_C5.2.2 rsiDec30 (by decide) (by decide!)⟩

/-- A flat 20-bar price history: no local extrema, but also an all-zero RSI
window, on which `analyze` raises instead of reporting. -/
def flatQuotes : List Quote :=
  List.replicate 20 ⟨100, 100, 100, 100, 0, none⟩

/-- A strictly increasing 20-bar price history: no local extrema of highs or
lows, and a non-degenerate RSI window. -/
def incQuotes20 : List Quote :=
  (List.range 20).map (fun i => ⟨(100 : ℚ) + i, 101 + i, 99 + i, 100 + i, 0, none⟩)

/-- Claim C6 counterexample: the flat 20-bar series satisfies the claim's
hypothesis (no strict local maximum above / minimum below the current price
in the scanned window) yet the analyzer returns no report at all — the RSI
window is all-flat, `calc_rsi` is NaN, and the score comparison
`Decimal('nan') < 30` raises `InvalidOperation` — instead of the claimed
fallback report. -/
theorem claim_C6_counterexample :
    20 ≤ flatQuotes.length ∧
    (∀ i < min 60 flatQuotes.length, 2 ≤ i → i + 2 < min 60 flatQuotes.length →
      ¬(isLocalMaxAt (srWindowHighs flatQuotes) i = true ∧
        srCurrentPrice flatQuotes < (srWindowHighs flatQuotes).getD i 0)) ∧
    (∀ i < min 60 flatQuotes.length, 2 ≤ i → i + 2 < min 60 flatQuotes.length →
      ¬(isLocalMinAt (srWindowLows flatQuotes) i = true ∧
        (srWindowLows flatQuotes).getD i 0 < srCurrentPrice flatQuotes)) ∧
    analyze "000001.SZ" flatQuotes = none :=
  ⟨by decide, by decide!, by decide!, by decide!⟩

/-- Claim C6 (amended): for every price series of at least 20 bars whose
trailing 14-position RSI window contains a nonzero close delta (the
amendment: an all-flat window makes the analyzer raise), the analyzer
returns a report, and: with no strict ±2-bar local maximum of the highs
above the current price in the trailing `min(60, N)`-bar window,
`resistance_1` is the fallback current price × 1.05; symmetrically with no
strict local minimum of the lows below it, `support_1` is current price ×
0.95. -/
theorem claim_C6 (symbol : String) (quotes : List Quote)
    (h20 : 20 ≤ quotes.length)
    (hwin : ∃ i < quotes.length, quotes.length - 14 ≤ i ∧ 1 ≤ i ∧
      (quotes.map (fun q => q.close)).getD i 0 ≠ (quotes.map (fun q => q.close)).getD (i - 1) 0) :
    ((∀ i < min 60 quotes.length, 2 ≤ i → i + 2 < min 60 quotes.length →
      ¬(isLocalMaxAt (srWindowHighs quotes) i = true ∧
        srCurrentPrice quotes < (srWindowHighs quotes).getD i 0)) →
      ∃ r sr, analyze symbol quotes = some r ∧ r.support_resistance = some sr ∧
        sr.resistance_1 = (quotes.map (fun q => q.close)).getLastD 0 * (105 / 100)) ∧
    ((∀ i < min 60 quotes.length, 2 ≤ i → i + 2 < min 60 quotes.length →
      ¬(isLocalMinAt (srWindowLows quotes) i = true ∧
        (srWindowLows quotes).getD i 0 < srCurrentPrice quotes)) →
      ∃ r sr, analyze symbol quotes = some r ∧ r.support_resistance = some sr ∧
        sr.support_1 = (quotes.map (fun q => q.close)).getLastD 0 * (95 / 100)) := by
  have hlen : 14 ≤ (quotes.map (fun q => q.close)).length := by
    rw [List.length_map]; omega
  have hwin2 : ∃ i < (quotes.map (fun q => q.close)).length,
      (quotes.map (fun q => q.close)).length - 14 ≤ i ∧ 1 ≤ i ∧
      (quotes.map (fun q => q.close)).getD i 0 ≠ (quotes.map (fun q => q.close)).getD (i - 1) 0 := by
    simpa [List.length_map] using hwin
  obtain ⟨r', hrsi, _, _⟩ := calc_rsi_bounds _ hlen hwin2
  have han : analyze symbol quotes = some
      { symbol := symbol
        trend := some (analyze_trend (quotes.map (fun q => q.close)))
        indicators := some (calc_indicators (quotes.map (fun q => q.high))
          (quotes.map (fun q => q.low)) (quotes.map (fun q => q.close)))
        support_resistance := some (find_support_resistance (quotes.map (fun q => q.high))
          (quotes.map (fun q => q.low)) (quotes.map (fun q => q.close)))
        patterns := detect_patterns quotes
        score := calc_score (analyze_trend (quotes.map (fun q => q.close)))
          (calc_indicators (quotes.map (fun q => q.high)) (quotes.map (fun q => q.low))
            (quotes.map (fun q => q.close))) (detect_patterns quotes)
        summary := none } := by
    unfold analyze
    rw [if_neg (by omega)]
    dsimp only
    rw [hrsi]
  have hcp := srCurrentPrice_eq quotes (by omega)
  constructor
  · intro hres
    refine ⟨_, _, han, rfl, ?_⟩
    rw [find_support_resistance_no_res quotes hres, hcp]
  · intro hsup
    refine ⟨_, _, han, rfl, ?_⟩
    rw [find_support_resistance_no_sup quotes hsup, hcp]

/-- Witness for C6 at the strictly increasing 20-bar history: both fallbacks
are produced. -/
theorem claim_C6_witness :
    (∃ r sr, analyze "000001.SZ" incQuotes20 = some r ∧ r.support_resistance = some sr ∧
      sr.resistance_1 = (incQuotes20.map (fun q => q.close)).getLastD 0 * (105 / 100)) ∧
    (∃ r sr, analyze "000001.SZ" incQuotes20 = some r ∧ r.support_resistance = some sr ∧
      sr.support_1 = (incQuotes20.map (fun q => q.close)).getLastD 0 * (95 / 100)) :=
  ⟨(claim_C6 "000001.SZ" incQuotes20 (by decide) (by decide!)).1 (by decide!),
   (claim_C6 "000001.SZ" incQuotes20 (by decide) (by decide!)).2 (by decide!)⟩

/-- Six statements whose 3 most recent ROE values average -10 and whose
following 3 average -9.5: the means are negative, so BOTH the more-than-10%
higher test and the more-than-10%-lower test hold at once. -/
def c7cexFins : List Financial :=
  [⟨0, none, none, some (-10), none, none, none, none⟩,
   ⟨0, none, none, some (-10), none, none, none, none⟩,
   ⟨0, none, none, some (-10), none, none, none, none⟩,
   ⟨0, none, none, some (-19 / 2), none, none, none, none⟩,
   ⟨0, none, none, some (-19 / 2), none, none, none, none⟩,
   ⟨0, none, none, some (-19 / 2), none, none, none, none⟩]

/-- The most recent statement of the rising-ROE witness list. -/
def c7head : Financial :=
  ⟨0, none, none, some 30, none, none, none, none⟩

/-- The older statements of the rising-ROE witness list (ROEs 30, 30, 10,
10, 10). -/
def c7tail : List Financial :=
  [⟨0, none, none, some 30, none, none, none, none⟩,
   ⟨0, none, none, some 30, none, none, none, none⟩,
   ⟨0, none, none, some 10, none, none, none, none⟩,
   ⟨0, none, none, some 10, none, none, none, none⟩,
   ⟨0, none, none, some 10, none, none, none, none⟩]

/-- Claim C7 counterexample: on `c7cexFins` the recent mean is more than 10%
below the older mean (as means are negative), yet the trend is classified
rising, not falling — the rising test is evaluated first and also holds, so
"falling exactly when recent < older × 0.9" fails. -/
theorem claim_C7_counterexample :
    6 ≤ (roeValues c7cexFins).length ∧
    ((roeValues c7cexFins).take 3).sum / 3 <
      (((roeValues c7cexFins).drop 3).take 3).sum / 3 * (9 / 10) ∧
    (analyze_profitability c7cexFins).roe_trend = "上升" :=
  ⟨by decide, by decide!, by decide!⟩

/-- Claim C7 (amended): with at least 6 non-null ROE values among the 12
most recent statements, the trend is rising exactly when the mean of the 3
most recent non-null ROE values exceeds the mean of the following 3 by more
than 10%; falling exactly when it is more than 10% lower AND the rising test
fails (the rising branch has priority — both tests can hold at once when the
means are negative); stable otherwise; rising adds +10 and falling adds -10
to the clamped profitability score. -/
theorem claim_C7 (latest : Financial) (rest : List Financial)
    (h6 : 6 ≤ (roeValues (latest :: rest)).length) :
    ((analyze_profitability (latest :: rest)).roe_trend = "上升" ↔
      (((roeValues (latest :: rest)).drop 3).take 3).sum / 3 * (11 / 10) <
        ((roeValues (latest :: rest)).take 3).sum / 3) ∧
    ((analyze_profitability (latest :: rest)).roe_trend = "下降" ↔
      (¬((((roeValues (latest :: rest)).drop 3).take 3).sum / 3 * (11 / 10) <
          ((roeValues (latest :: rest)).take 3).sum / 3) ∧
        ((roeValues (latest :: rest)).take 3).sum / 3 <
          (((roeValues (latest :: rest)).drop 3).take 3).sum / 3 * (9 / 10))) ∧
    ((analyze_profitability (latest :: rest)).roe_trend = "稳定" ↔
      (¬((((roeValues (latest :: rest)).drop 3).take 3).sum / 3 * (11 / 10) <
          ((roeValues (latest :: rest)).take 3).sum / 3) ∧
        ¬(((roeValues (latest :: rest)).take 3).sum / 3 <
          (((roeValues (latest :: rest)).drop 3).take 3).sum / 3 * (9 / 10)))) ∧
    (analyze_profitability (latest :: rest)).score =
      clampScore (50 + roeBonus latest.roe +
        roeTrendBonus ((analyze_profitability (latest :: rest)).roe_trend) +
        grossMarginBonus latest.gross_margin) := by
  have htrend : (analyze_profitability (latest :: rest)).roe_trend =
      roeTrendOf (latest :: rest) := rfl
  have hscore : (analyze_profitability (latest :: rest)).score =
      clampScore (50 + roeBonus latest.roe + roeTrendBonus (roeTrendOf (latest :: rest)) +
        grossMarginBonus latest.gross_margin) := rfl
  have h3 : 3 ≤ (roeValues (latest :: rest)).length := by omega
  have hunf : roeTrendOf (latest :: rest) =
      (if (((roeValues (latest :: rest)).drop 3).take 3).sum / 3 * (11 / 10) <
          ((roeValues (latest :: rest)).take 3).sum / 3 then "上升"
       else if ((roeValues (latest :: rest)).take 3).sum / 3 <
          (((roeValues (latest :: rest)).drop 3).take 3).sum / 3 * (9 / 10) then "下降"
       else "稳定") := by
    unfold roeTrendOf
    dsimp only
    rw [if_pos h3, if_pos h6]
  rw [htrend, hscore, hunf]
  split_ifs with h1 h2
  · exact ⟨by simp [h1], by simp [h1], by simp [h1], rfl⟩
  · exact ⟨by simp [h1], by simp [h1, h2], by simp [h2], rfl⟩
  · exact ⟨by simp [h1], by simp [h2], by simp [h1, h2], rfl⟩

/-- Witness for C7 at the rising-ROE list (ROEs 30, 30, 30, 10, 10, 10):
trend rising and the score carries the +10 trend bonus. -/
theorem claim_C7_witness :
    (analyze_profitability (c7head :: c7tail)).roe_trend = "上升" ∧
    (analyze_profitability (c7head :: c7tail)).score =
      clampScore (50 + roeBonus c7head.roe + roeTrendBonus "上升" +
        grossMarginBonus c7head.gross_margin) := by
  have h := claim_C7 c7head c7tail (by decide)
  have ht : (analyze_profitability (c7head :: c7tail)).roe_trend = "上升" :=
    h.1.mpr (by decide!)
  refine ⟨ht, ?_⟩
  have hs := h.2.2.2
  rw [ht] at hs
  exact hs

/-- Every result of the value screen carries the clamped value score
computed from its own recorded PE/PB and the strategy bounds. -/
theorem screen_value_score_eq (stocks : List StockInfo) (getFin : String → List Financial)
    (mpe mpb : ℚ) :
    ∀ r ∈ screen_value_strategy stocks getFin mpe mpb,
      r.score = min 100 (max 0 ((1 - r.pe / mpe) * 50 + (1 - r.pb / mpb) * 50)) := by
  intro r hr
  unfold screen_value_strategy at hr
  have hr2 : r ∈ stocks.filterMap (screen_value_item getFin mpe mpb) :=
    (List.mergeSort_perm _ _).mem_iff.mp hr
  obtain ⟨stock, _, hitem⟩ := List.mem_filterMap.mp hr2
  unfold screen_value_item at hitem
  split at hitem
  · exact absurd hitem (by simp)
  · split at hitem
    · split at hitem
      · split at hitem
        · exact absurd hitem (by simp)
        · obtain rfl := Option.some.inj hitem
          rfl
      · exact absurd hitem (by simp)
    · exact absurd hitem (by simp)

/-- The value screen returns its results sorted by score descending. -/
theorem screen_value_sorted (stocks : List StockInfo) (getFin : String → List Financial)
    (mpe mpb : ℚ) :
    List.Sorted (fun a b : ScreenResult => b.score ≤ a.score)
      (screen_value_strategy stocks getFin mpe mpb) := by
  unfold screen_value_strategy
  refine List.Pairwise.imp ?_ (List.sorted_mergeSort ?_ ?_
    (stocks.filterMap (screen_value_item getFin mpe mpb)))
  · intro a b hab
    exact of_decide_eq_true hab
  · intro a b c hab hbc
    simp only [decide_eq_true_eq] at *
    linarith
  · intro a b
    simp only [Bool.or_eq_true, decide_eq_true_eq]
    exact le_total b.score a.score

/-- The concrete two-candidate pool of the C8 scenario. -/
def c8stocks : List StockInfo :=
  [⟨"A", "甲"⟩, ⟨"B", "乙"⟩]

/-- Statements for the C8 scenario: candidate A has PE 25, PB 10; candidate
B has PE 5.5, PB 0.8 (each a single statement). -/
def c8getFin : String → List Financial :=
  fun s =>
    if s = "A" then [⟨0, none, none, none, some 25, some 10, none, none⟩]
    else [⟨0, none, none, none, some (11 / 2), some (4 / 5), none, none⟩]

/-- The screening hit produced for candidate B under maxPE 15, maxPB 2. -/
def c8resB : ScreenResult :=
  ⟨"B", "乙", 185 / 3, 11 / 2, 4 / 5⟩

/-- Claim C8: under the value strategy with maxPE 15 and maxPB 2 the PE 25 /
PB 10 candidate is excluded and the PE 5.5 / PB 0.8 candidate is included
with positive score; every included candidate scores
`(1 - PE/maxPE)·50 + (1 - PB/maxPB)·50` clamped to [0, 100]; the result list
is sorted by score descending. -/
theorem claim_C8 :
    (∀ r ∈ screen_value_strategy c8stocks c8getFin 15 2, r.symbol ≠ "A") ∧
    (∃ r ∈ screen_value_strategy c8stocks c8getFin 15 2, r.symbol = "B" ∧ 0 < r.score) ∧
    (∀ (stocks : List StockInfo) (getFin : String → List Financial) (mpe mpb : ℚ),
      ∀ r ∈ screen_value_strategy stocks getFin mpe mpb,
        r.score = min 100 (max 0 ((1 - r.pe / mpe) * 50 + (1 - r.pb / mpb) * 50))) ∧
    (∀ (stocks : List StockInfo) (getFin : String → List Financial) (mpe mpb : ℚ),
      List.Sorted (fun a b : ScreenResult => b.score ≤ a.score)
        (screen_value_strategy stocks getFin mpe mpb)) :=
  ⟨by decide!, by decide!, screen_value_score_eq, screen_value_sorted⟩

/-- Witness for C8: the scoring formula applied at candidate B's concrete
hit. -/
theorem claim_C8_witness :
    c8resB.score = min 100 (max 0 ((1 - c8resB.pe / 15) * 50 + (1 - c8resB.pb / 2) * 50)) :=
  claim_C8.2.2.1 c8stocks c8getFin 15 2 c8resB (by decide!)

/-- The single candidate of the C9 scenarios. -/
def c9stock : StockInfo :=
  ⟨"C", "丙"⟩

/-- C9 counterexample statements, most recent first as the repository
returns them: the most recent (latest) statement has PE -5, PB 1, the oldest
has PE 100, PB 10. -/
def c9finNew : Financial :=
  ⟨0, none, none, none, some (-5), some 1, none, none⟩

/-- The oldest statement of the C9 counterexample. -/
def c9finOld : Financial :=
  ⟨100, none, none, none, some 100, some 10, none, none⟩

/-- The single statement of the C9 witness candidate: PE -5, PB 1. -/
def c9finNeg : Financial :=
  ⟨0, none, none, none, some (-5), some 1, none, none⟩

/-- Claim C9 counterexample: the candidate's LATEST statement (the head of
the most-recent-first list) has PE -5 < 0 and PB 1 within bounds, yet the
candidate is excluded: the code reads `financials[-1]`, the OLDEST statement
(PE 100 > maxPE), despite naming it `latest`. -/
theorem claim_C9_counterexample :
    ([c9finNew, c9finOld].headD c9finOld).pe = some (-5) ∧
    ([c9finNew, c9finOld].headD c9finOld).pb = some 1 ∧
    ((-5 : ℚ) < 0 ∧ (0 : ℚ) < 1 ∧ (1 : ℚ) ≤ 2 ∧ (0 : ℚ) ≤ 15) ∧
    screen_value_strategy [c9stock] (fun _ => [c9finNew, c9finOld]) 15 2 = [] :=
  ⟨rfl, rfl, by decide!, by decide!⟩

/-- Claim C9 (amended): the statement the value screen consults is the LAST
element of the fetched most-recent-first list (the oldest in the window, not
the latest).  For every candidate whose consulted statement has non-null
PE < 0 and non-null PB with 0 < PB ≤ maxPB (and positive bounds), the
candidate is included with the value score of that PE/PB, and its score is
strictly greater than with any positive PE ≤ maxPE in place of the negative
one. -/
theorem claim_C9 (stocks : List StockInfo) (getFin : String → List Financial)
    (mpe mpb : ℚ) (hmpe : 0 < mpe) (hmpb : 0 < mpb)
    (stock : StockInfo) (hs : stock ∈ stocks) (consulted : Financial)
    (hlast : (getFin stock.symbol).getLast? = some consulted)
    (pe pb : ℚ) (hpe : consulted.pe = some pe) (hpeneg : pe < 0)
    (hpb : consulted.pb = some pb) (hpb0 : 0 < pb) (hpble : pb ≤ mpb) :
    (∃ r ∈ screen_value_strategy stocks getFin mpe mpb,
      r.symbol = stock.symbol ∧ r.score = calc_value_score pe pb mpe mpb) ∧
    (∀ pe2 : ℚ, 0 < pe2 → pe2 ≤ mpe →
      calc_value_score pe2 pb mpe mpb < calc_value_score pe pb mpe mpb) := by
  constructor
  · have hitem : screen_value_item getFin mpe mpb stock =
        some ⟨stock.symbol, stock.name, calc_value_score pe pb mpe mpb, pe, pb⟩ := by
      unfold screen_value_item
      rw [hlast]
      dsimp only
      unfold truthy
      rw [hpe, hpb]
      dsimp only
      rw [if_neg (ne_of_lt hpeneg), if_neg (ne_of_gt hpb0)]
      dsimp only
      rw [if_pos ⟨by linarith, hpble⟩]
      rw [if_neg (by push_neg; exact ⟨ne_of_gt hmpe, ne_of_gt hmpb⟩)]
    refine ⟨⟨stock.symbol, stock.name, calc_value_score pe pb mpe mpb, pe, pb⟩, ?_, rfl, rfl⟩
    unfold screen_value_strategy
    exact ((List.mergeSort_perm _ _).mem_iff).mpr
      (List.mem_filterMap.mpr ⟨stock, hs, hitem⟩)
  · intro pe2 h2pos h2le
    unfold calc_value_score
    have hB0 : 0 ≤ (1 - pb / mpb) * 50 := by
      have : pb / mpb ≤ 1 := (div_le_one hmpb).mpr hpble
      linarith
    have hBlt : (1 - pb / mpb) * 50 < 50 := by
      have : 0 < pb / mpb := div_pos hpb0 hmpb
      linarith
    have h1 : 50 < (1 - pe / mpe) * 50 := by
      have : pe / mpe < 0 := div_neg_of_neg_of_pos hpeneg hmpe
      linarith
    have h2a : 0 ≤ (1 - pe2 / mpe) * 50 := by
      have : pe2 / mpe ≤ 1 := (div_le_one hmpe).mpr h2le
      linarith
    have h2b : (1 - pe2 / mpe) * 50 < 50 := by
      have : 0 < pe2 / mpe := div_pos h2pos hmpe
      linarith
    rw [max_eq_right (by linarith), min_eq_right (by linarith), max_eq_right (by linarith)]
    exact lt_min (by linarith) (by linarith)

/-- Witness for C9: the single-statement PE -5 / PB 1 candidate is included
under maxPE 15 / maxPB 2, and beats the same candidate with PE 5. -/
theorem claim_C9_witness :
    (∃ r ∈ screen_value_strategy [c9stock] (fun _ => [c9finNeg]) 15 2,
      r.symbol = c9stock.symbol ∧ r.score = calc_value_score (-5) 1 15 2) ∧
    calc_value_score 5 1 15 2 < calc_value_score (-5) 1 15 2 := by
  have h := claim_C9 [c9stock] (fun _ => [c9finNeg]) 15 2 (by decide!) (by decide!)
    c9stock (by decide) c9finNeg rfl (-5) 1 rfl (by decide!) rfl (by decide!) (by decide!)
  exact ⟨h.1, h.2 5 (by decide!) (by decide!)⟩

/-- Claim C10: in growth analysis with at least 2 statements, each YoY value
exists exactly when both the most recent and the previous underlying value
are present and nonzero — a present zero (including a latest revenue of 0,
whose -100% YoY would be well-defined) yields `None` — the YoY value, when
present, is `(a-b)/b·100`, and the score is the clamp of base 50 plus the
YoY bonuses (an absent YoY contributing the zero bonus) and the CAGR
bonus. -/
theorem claim_C10 (rpow : ℚ → ℚ → ℚ) (latest previous : Financial) (rest : List Financial) :
    ((latest.revenue = none ∨ latest.revenue = some 0 ∨ previous.revenue = none ∨
        previous.revenue = some 0) →
      (analyze_growth rpow (latest :: previous :: rest)).revenue_yoy = none) ∧
    ((latest.net_profit = none ∨ latest.net_profit = some 0 ∨ previous.net_profit = none ∨
        previous.net_profit = some 0) →
      (analyze_growth rpow (latest :: previous :: rest)).profit_yoy = none) ∧
    (∀ a b : ℚ, latest.revenue = some a → a ≠ 0 → previous.revenue = some b → b ≠ 0 →
      (analyze_growth rpow (latest :: previous :: rest)).revenue_yoy =
        some ((a - b) / b * 100)) ∧
    (∀ a b : ℚ, latest.net_profit = some a → a ≠ 0 → previous.net_profit = some b → b ≠ 0 →
      (analyze_growth rpow (latest :: previous :: rest)).profit_yoy =
        some ((a - b) / b * 100)) ∧
    ((analyze_growth rpow (latest :: previous :: rest)).score =
      clampScore (50 +
        yoyBonus ((analyze_growth rpow (latest :: previous :: rest)).revenue_yoy) +
        yoyBonus ((analyze_growth rpow (latest :: previous :: rest)).profit_yoy) +
        cagrBonus ((analyze_growth rpow (latest :: previous :: rest)).revenue_cagr_3y)) ∧
      yoyBonus none = 0) := by
  have hry : (analyze_growth rpow (latest :: previous :: rest)).revenue_yoy =
      yoyOf latest.revenue previous.revenue := rfl
  have hpy : (analyze_growth rpow (latest :: previous :: rest)).profit_yoy =
      yoyOf latest.net_profit previous.net_profit := rfl
  refine ⟨?_, ?_, ?_, ?_, rfl, rfl⟩
  · intro h
    rw [hry]
    rcases h with h | h | h | h <;>
      cases htl : truthy latest.revenue <;> cases htp : truthy previous.revenue <;>
      simp_all [yoyOf, truthy]
  · intro h
    rw [hpy]
    rcases h with h | h | h | h <;>
      cases htl : truthy latest.net_profit <;> cases htp : truthy previous.net_profit <;>
      simp_all [yoyOf, truthy]
  · intro a b ha ha0 hb hb0
    rw [hry]
    unfold yoyOf truthy
    rw [ha, hb]
    dsimp only
    rw [if_neg ha0, if_neg hb0]
  · intro a b ha ha0 hb hb0
    rw [hpy]
    unfold yoyOf truthy
    rw [ha, hb]
    dsimp only
    rw [if_neg ha0, if_neg hb0]

/-- The most recent statement of the C10 witness: revenue exactly 0, profit
12000. -/
def c10latest : Financial :=
  ⟨0, some 0, some 12000, none, none, none, none, none⟩

/-- The previous statement of the C10 witness: revenue 10000, profit
10000. -/
def c10previous : Financial :=
  ⟨0, some 10000, some 10000, none, none, none, none, none⟩

/-- Witness for C10: a latest revenue of exactly 0 yields no revenue YoY
(despite previous revenue 10000), while the profit YoY is computed, and the
score carries the zero bonus for the absent revenue YoY. -/
theorem claim_C10_witness :
    (analyze_growth (fun _ _ => 0) (c10latest :: c10previous :: [])).revenue_yoy = none ∧
    (analyze_growth (fun _ _ => 0) (c10latest :: c10previous :: [])).profit_yoy =
      some ((12000 - 10000) / 10000 * 100) ∧
    (analyze_growth (fun _ _ => 0) (c10latest :: c10previous :: [])).score =
      clampScore (50 + yoyBonus none + yoyBonus (some ((12000 - 10000) / 10000 * 100)) +
        cagrBonus none) := by
  have h := claim_C10 (fun _ _ => 0) c10latest c10previous []
  have h1 : (analyze_growth (fun _ _ => 0) (c10latest :: c10previous :: [])).revenue_yoy =
      none := h.1 (Or.inr (Or.inl rfl))
  have h2 : (analyze_growth (fun _ _ => 0) (c10latest :: c10previous :: [])).profit_yoy =
      some ((12000 - 10000) / 10000 * 100) :=
    h.2.2.2.1 12000 10000 rfl (by decide!) rfl (by decide!)
  have hc : (analyze_growth (fun _ _ => 0) (c10latest :: c10previous :: [])).revenue_cagr_3y =
      none := rfl
  have hs := h.2.2.2.2.1
  rw [h1, h2, hc] at hs
  exact ⟨h1, h2, hs⟩

/-- Claim C4 (amended): a single scan of one watch-list entry emits at least
0 and at most 5 alert events — the price check alone can contribute 2, since
the high and low thresholds are tested independently. -/
theorem claim_C4 (item : WatchlistItem) (quotes : List Quote) :
    (check_item item quotes).length ≤ 5 := by
  unfold check_item
  split_ifs
  · simp
  · simp only [List.length_append]
    have h1 := check_price_alerts_length_le item.symbol item
      (quotes.getLastD ⟨0, 0, 0, 0, 0, none⟩)
    have h2 := check_volatility_alert_length_le item.symbol
      (quotes.getLastD ⟨0, 0, 0, 0, 0, none⟩)
    have h3 := check_macd_golden_cross_length_le item.symbol (quotes.map (fun q => q.close))
    have h4 := check_rsi_alerts_length_le item.symbol (quotes.map (fun q => q.close))
    omega

end StockAnalyzer
